import Mathlib

/-!
Verification development for the nested boolean filter evaluator
(`src/data_utils.py`) and the type-coercion service (`src/utils.py`).

The embedding carries JSON-like values (`JVal`) both as filter-tree nodes
and as table cells.  A table (`DataFrame`) is an ordered association list
of named columns; each column records its pandas dtype tag and its cells.
Missing values (Python `None` / `NaN` / `NaT` / `pd.NA`) are represented
by the single constructor `JVal.jNull`; the embedding carries no
floating-point values, so fractional magnitudes are outside the embedded
value domain and are noted where relevant.

Calendar dates are represented by their day number relative to 1970-01-01
(proleptic Gregorian), with the standard days-from-civil conversion.
-/

namespace PyUtils

/-- JSON-compatible values: scalars, lists and string-keyed mappings.
`jDate` represents a Python `datetime.date` as a day count from
1970-01-01.  `jNull` is the missing-value marker (`None`/`NaN`/`pd.NA`). -/
inductive JVal where
  | jNull : JVal
  | jBool : Bool → JVal
  | jInt : Int → JVal
  | jStr : String → JVal
  | jDate : Int → JVal
  | jList : List JVal → JVal
  | jDict : List (String × JVal) → JVal

/-- pandas dtype tags that the source code inspects: `objDt` is the
generic `object` dtype (the one `pd.api.types.is_object_dtype` accepts),
`stringDt` is the nullable `string` dtype produced by `astype("string")`,
`boolDt` is numpy `bool`, `booleanDt` the nullable boolean dtype,
`int64Dt` the nullable `Int64`, `float64Dt` the nullable `Float64`,
`datetimeDt` is `datetime64[ns]`. -/
inductive Dtype where
  | objDt | stringDt | boolDt | booleanDt | int64Dt | float64Dt | datetimeDt
deriving DecidableEq, Repr

/-- A named column: its dtype tag and its cells (top to bottom). -/
structure Column where
  dtype : Dtype
  cells : List JVal

/-- An in-memory table: ordered named columns.  Row `i` of the table is
the `i`-th cell of every column. -/
structure DataFrame where
  cols : List (String × Column)

/-- The error taxonomy of the source: `TypeError`, `ValueError`,
`KeyError`.  `recursionErr` models Python's recursion limit and is only
produced when the explicit fuel of the evaluator runs out; the canonical
entry point always supplies enough fuel. -/
inductive Err where
  | typeErr : String → Err
  | valueErr : String → Err
  | keyErr : String → Err
  | recursionErr : Err
deriving DecidableEq, Repr

/-- A boolean row mask, one entry per table row. -/
abbrev Mask := List Bool

/-! ## Calendar arithmetic (proleptic Gregorian, Hinnant's algorithms) -/

/-- Day number of the civil date `y-m-d`, with day 0 = 1970-01-01. -/
def daysFromCivil (y m d : Int) : Int :=
  let y2 := if m ≤ 2 then y - 1 else y
  let era := (if 0 ≤ y2 then y2 else y2 - 399) / 400
  let yoe := y2 - era * 400
  let mp := (m + 9) % 12
  let doy := (153 * mp + 2) / 5 + d - 1
  let doe := yoe * 365 + yoe / 4 - yoe / 100 + doy
  era * 146097 + doe - 719468

/-- Civil date `(y, m, d)` of a day number (inverse of `daysFromCivil`). -/
def civilFromDays (z0 : Int) : Int × Int × Int :=
  let z := z0 + 719468
  let era := (if 0 ≤ z then z else z - 146096) / 146097
  let doe := z - era * 146097
  let yoe := (doe - doe / 1460 + doe / 36524 - doe / 146096) / 365
  let y := yoe + era * 400
  let doy := doe - (365 * yoe + yoe / 4 - yoe / 100)
  let mp := (5 * doy + 2) / 153
  let d := doy - (153 * mp + 2) / 5 + 1
  let m := mp + (if mp < 10 then 3 else -9)
  (if m ≤ 2 then y + 1 else y, m, d)

/-- Leap-year test. -/
def isLeap (y : Int) : Bool :=
  (y % 4 == 0 && y % 100 != 0) || (y % 400 == 0)

/-- Number of days in month `m` of year `y`. -/
def daysInMonth (y m : Int) : Int :=
  if m == 2 then (if isLeap y then 29 else 28)
  else if m == 4 || m == 6 || m == 9 || m == 11 then 30
  else 31

/-! ## String helpers mirroring the Python operations used -/

/-- Python `str.lower()` over the embedded (ASCII) text domain. -/
def strToLower (s : String) : String := ⟨s.data.map Char.toLower⟩

/-- Python `str.upper()` over the embedded (ASCII) text domain. -/
def strToUpper (s : String) : String := ⟨s.data.map Char.toUpper⟩

/-- ASCII whitespace, the class Python `str.strip()` removes from the
embedded text domain. -/
def isPySpace (c : Char) : Bool :=
  c == ' ' || c == '\t' || c == '\n' || c == '\r' || c == '\x0b' || c == '\x0c'

/-- Python `str.strip()`. -/
def strStrip (s : String) : String :=
  ⟨((s.data.dropWhile isPySpace).reverse.dropWhile isPySpace).reverse⟩

/-- Python `k.lower().strip()`: the key normalisation of `_eval_node`. -/
def normKey (k : String) : String := strStrip (strToLower k)

/-- Lexicographic (code-point) order on character lists, as Python
compares strings. -/
def charListLt : List Char → List Char → Bool
  | [], [] => false
  | [], _ :: _ => true
  | _ :: _, [] => false
  | a :: as, b :: bs =>
      if a.toNat < b.toNat then true
      else if a.toNat == b.toNat then charListLt as bs
      else false

/-- Python `a < b` on strings. -/
def strLt (a b : String) : Bool := charListLt a.data b.data

/-- Literal substring search, Python `needle in hay`
(`str.contains(..., regex=False)`). -/
def charsContains (nd : List Char) : List Char → Bool
  | [] => nd.isEmpty
  | h :: t => nd.isPrefixOf (h :: t) || charsContains nd t

/-- Literal substring test on strings. -/
def strContains (hay nd : String) : Bool := charsContains nd.data hay.data

/-- Literal prefix test on strings (Python `str.startswith`). -/
def strStarts (hay nd : String) : Bool := nd.data.isPrefixOf hay.data

/-- Literal suffix test on strings (Python `str.endswith`). -/
def strEnds (hay nd : String) : Bool := nd.data.isSuffixOf hay.data

/-- Zero-pad a nonnegative number to two digits. -/
def pad2 (n : Int) : String :=
  if n < 10 then "0" ++ toString n else toString n

/-- ISO rendering of a day number, Python `str(datetime.date)`. -/
def isoOfDays (z : Int) : String :=
  let c := civilFromDays z
  toString c.1 ++ "-" ++ pad2 c.2.1 ++ "-" ++ pad2 c.2.2

/-- Python `str(x)` for the scalar values the embedding carries.  List
and mapping reprs are abbreviated: they are never a recognised operator
string, which is the only way the evaluator consumes this rendering of a
non-scalar. -/
def pyStr : JVal → String
  | .jNull => "None"
  | .jBool b => if b then "True" else "False"
  | .jInt n => toString n
  | .jStr s => s
  | .jDate z => isoOfDays z
  | .jList _ => "[list]"
  | .jDict _ => "[dict]"

/-- Missing-value test (`pd.isna` on a cell). -/
def isNa : JVal → Bool
  | .jNull => true
  | _ => false

/-! ## Elementwise comparison semantics

Scalar `==` as numpy/pandas apply it elementwise over the embedded value
domain: `None == None` is true on object columns, numbers and booleans
compare numerically (Python `True == 1`), strings and dates compare by
value, and values of unrelated kinds are unequal.  A missing cell is
never equal to a present scalar. -/
def pyEq : JVal → JVal → Bool
  | .jNull, .jNull => true
  | .jBool a, .jBool b => a == b
  | .jBool a, .jInt b => (if a then (1 : Int) else 0) == b
  | .jInt a, .jBool b => a == (if b then (1 : Int) else 0)
  | .jInt a, .jInt b => a == b
  | .jStr a, .jStr b => a == b
  | .jDate a, .jDate b => a == b
  | _, _ => false

/-- Python `a < b` for the embedded scalars: numbers (booleans counting
as 0/1), strings and dates are ordered within their kind; every other
pairing — in particular anything involving `None` — raises `TypeError`,
which is what an elementwise ordering comparison surfaces. -/
def pyLt (a b : JVal) : Except Err Bool :=
  match a, b with
  | .jInt x, .jInt y => .ok (decide (x < y))
  | .jInt x, .jBool y => .ok (decide (x < (if y then 1 else 0)))
  | .jBool x, .jInt y => .ok (decide ((if x then (1 : Int) else 0) < y))
  | .jBool x, .jBool y => .ok (decide ((if x then (1 : Int) else 0) < (if y then 1 else 0)))
  | .jStr x, .jStr y => .ok (strLt x y)
  | .jDate x, .jDate y => .ok (decide (x < y))
  | _, _ => .error (.typeErr "unorderable types")

/-- Python `a <= b`, same domain as `pyLt`. -/
def pyLe (a b : JVal) : Except Err Bool :=
  match a, b with
  | .jInt x, .jInt y => .ok (decide (x ≤ y))
  | .jInt x, .jBool y => .ok (decide (x ≤ (if y then 1 else 0)))
  | .jBool x, .jInt y => .ok (decide ((if x then (1 : Int) else 0) ≤ y))
  | .jBool x, .jBool y => .ok (decide ((if x then (1 : Int) else 0) ≤ (if y then 1 else 0)))
  | .jStr x, .jStr y => .ok (strLt x y || x == y)
  | .jDate x, .jDate y => .ok (decide (x ≤ y))
  | _, _ => .error (.typeErr "unorderable types")

/-- `pandas.Series.isin` matches by hash-table equality, under which a
missing entry in the column does match a missing marker contained in the
value list; otherwise it agrees with scalar equality. -/
def isinEq (cell v : JVal) : Bool := pyEq cell v

/-! ## Table access -/

/-- First column carrying the given name (`df[col]`). -/
def findColumn (df : DataFrame) (name : String) : Option Column :=
  match df.cols.find? (fun kv => kv.1 == name) with
  | some kv => some kv.2
  | none => none

/-- Column-name membership (`col in df.columns`).  A non-string label is
never among the (string) column names of the embedded tables. -/
def hasColumn (df : DataFrame) (name : String) : Bool :=
  (findColumn df name).isSome

/-- Replace the contents of an existing named column (`out[col] = s`). -/
def setColumn (df : DataFrame) (name : String) (c : Column) : DataFrame :=
  ⟨df.cols.map (fun kv => if kv.1 == name then (kv.1, c) else kv)⟩

/-! ## Node-key access, as `_eval_node` performs it -/

/-- Python `node.get(k)` on the insertion-ordered mapping. -/
def getRaw : List (String × JVal) → String → Option JVal
  | [], _ => none
  | (k2, v) :: rest, k => if k2 == k then some v else getRaw rest k

/-- Python `k in node`. -/
def rawHas (kvs : List (String × JVal)) (k : String) : Bool :=
  (getRaw kvs k).isSome

/-- Membership of `t` in the normalised key set
`{k.lower().strip() for k in node.keys()}`. -/
def hasNormKey (kvs : List (String × JVal)) (t : String) : Bool :=
  kvs.any (fun kv => normKey kv.1 == t)

/-- Python `x is None` for a `dict.get` result: the key may be absent or
may be bound to `None`. -/
def optIsNone : Option JVal → Bool
  | none => true
  | some .jNull => true
  | some _ => false

/-! ## Masks -/

/-- Row-aligned boolean AND (`mask1 & mask2`). -/
def maskAnd (a b : Mask) : Mask := List.zipWith (· && ·) a b

/-- Row-aligned boolean OR (`mask1 | mask2`). -/
def maskOr (a b : Mask) : Mask := List.zipWith (· || ·) a b

/-- Row-aligned boolean NOT (`~mask`). -/
def maskNot (a : Mask) : Mask := a.map (!·)

/-! ## Operator families (verbatim from the source tables) -/

def _OPS : List String := ["==", "!=", ">", ">=", "<", "<="]

def _STRING_OPS : List String := ["contains", "not_contains", "startswith", "endswith"]

def _NULL_OPS : List String := ["isnull", "is_null", "notnull", "not_null"]

def _SET_OPS : List String := ["in", "isin", "not_in", "notin"]

def _RANGE_OPS : List String := ["between"]

/-! ## Leaf-rule evaluation -/

/-- Short-circuiting elementwise traversal in `Except`: the first raised
error aborts the whole evaluation, as an elementwise pandas operation
raises once for the whole column. -/
def mapExcept (f : α → Except Err β) : List α → Except Err (List β)
  | [] => .ok []
  | x :: xs => do
      let y ← f x
      let ys ← mapExcept f xs
      .ok (y :: ys)

/-- Python `list(val) if not isinstance(val, (str, bytes)) else [val]`:
a text scalar is wrapped as a singleton, a list yields its elements,
iterating a mapping yields its keys, and any other scalar is not
iterable (`TypeError`). -/
def pyListOf : JVal → Except Err (List JVal)
  | .jStr s => .ok [.jStr s]
  | .jList xs => .ok xs
  | .jDict kvs => .ok (kvs.map (fun kv => .jStr kv.1))
  | _ => .error (.typeErr "value is not iterable")

/-- `s.between(low, high, inclusive="both")`: true where
`low <= cell <= high`, raising where the native ordering is undefined. -/
def betweenMask (cells : List JVal) (low high : JVal) : Except Err Mask :=
  mapExcept (fun c => do
    let a ← pyLe low c
    let b ← pyLe c high
    .ok (a && b)) cells

/-- Apply a text predicate under `na=False`: a missing entry yields
`false` instead of propagating. -/
def naFalse (f : String → Bool) : Option String → Bool
  | none => false
  | some t => f t

/-- Lowercased equality/inequality between a nullable text cell and an
optional scalar, for the case-insensitive comparison override.  A
missing entry on either side compares as `NA` in pandas, which can never
select a row; it is modelled as `false`. -/
def ciCmp (opN : String) (lc right : Option String) : Bool :=
  match lc, right with
  | some a, some b => if opN == "==" then a == b else a != b
  | _, _ => false

/-- Elementwise comparison of the paired-off cells under one of the six
comparison operators. -/
def cmpPairs (opN : String) (pairs : List (JVal × JVal)) : Except Err Mask :=
  if opN == "==" then .ok (pairs.map (fun p => pyEq p.1 p.2))
  else if opN == "!=" then .ok (pairs.map (fun p => !(pyEq p.1 p.2)))
  else if opN == ">" then mapExcept (fun p => pyLt p.2 p.1) pairs
  else if opN == ">=" then mapExcept (fun p => pyLe p.2 p.1) pairs
  else if opN == "<" then mapExcept (fun p => pyLt p.1 p.2) pairs
  else mapExcept (fun p => pyLe p.1 p.2) pairs

/-- `_OPS[op_norm](s, val)`: comparing a Series against a list pairs the
entries off row by row (raising when the lengths differ); comparing
against a scalar broadcasts it.  Mapping literals never compare equal to
a scalar cell and are treated as broadcast scalars. -/
def cmpSeries (opN : String) (cells : List JVal) (val : JVal) : Except Err Mask :=
  match val with
  | .jList vs =>
      if vs.length == cells.length then cmpPairs opN (cells.zip vs)
      else .error (.valueErr "Lengths must match to compare")
  | v => cmpPairs opN (cells.map (fun c => (c, v)))

/-- The leaf-rule dispatch of `_eval_node` on the already-normalised
operator string `opN = str(op).lower().strip()`, trying the operator
families in the source's order (`op` is only kept for the error message
of the unsupported-operator fallthrough). -/
def evalLeafOpN (opN : String) (op : JVal) (s : Column) (val : JVal) (ci : Bool) :
    Except Err Mask :=
  if _NULL_OPS.contains opN then
    if opN == "isnull" || opN == "is_null" then .ok (s.cells.map isNa)
    else .ok (s.cells.map (fun c => !(isNa c)))
  else if _SET_OPS.contains opN then
    if isNa val then .error (.valueErr "Operator requires a list or iterable value")
    else
      match pyListOf val with
      | .error e => .error e
      | .ok vals =>
          let base := s.cells.map (fun c => vals.any (isinEq c))
          if opN == "in" || opN == "isin" then .ok base else .ok (maskNot base)
  else if _RANGE_OPS.contains opN then
    match val with
    | .jList [low, high] => betweenMask s.cells low high
    | _ => .error (.valueErr "Operator between requires value [low, high]")
  else if _STRING_OPS.contains opN then
    if isNa val then .error (.valueErr "Operator requires a value")
    else
      let sStr := s.cells.map (fun c => if isNa c then none else some (pyStr c))
      let sStr2 := if ci then sStr.map (Option.map strToLower) else sStr
      let needle := if ci then strToLower (pyStr val) else pyStr val
      if opN == "contains" then .ok (sStr2.map (naFalse (fun t => strContains t needle)))
      else if opN == "not_contains" then
        .ok (maskNot (sStr2.map (naFalse (fun t => strContains t needle))))
      else if opN == "startswith" then .ok (sStr2.map (naFalse (fun t => strStarts t needle)))
      else .ok (sStr2.map (naFalse (fun t => strEnds t needle)))
  else if _OPS.contains opN then
    if ci && (opN == "==" || opN == "!=") && s.dtype == .objDt then
      let left := s.cells.map (fun c => if isNa c then none else some (strToLower (pyStr c)))
      let right := if isNa val then none else some (strToLower (pyStr val))
      .ok (left.map (fun lc => ciCmp opN lc right))
    else
      cmpSeries opN s.cells val
  else .error (.valueErr ("Unsupported operator: " ++ pyStr op))

/-- The leaf-rule dispatch of `_eval_node` once the column Series `s`
has been fetched: normalise the operator string and dispatch. -/
def evalLeafOp (s : Column) (op val : JVal) (ci : Bool) : Except Err Mask :=
  evalLeafOpN (strStrip (strToLower (pyStr op))) op s val ci

/-- The leaf-rule prologue of `_eval_node`: fetch `col`, `op` and the
optional `value`, validate their presence, and look the column up. -/
def evalLeaf (df : DataFrame) (kvs : List (String × JVal)) (ci : Bool) : Except Err Mask :=
  let col := (getRaw kvs "col").getD .jNull
  let op := (getRaw kvs "op").getD .jNull
  let val := (getRaw kvs "value").getD .jNull
  if isNa col || isNa op then
    .error (.valueErr "Leaf rule must include col and op (and usually value).")
  else
    match (match col with
           | .jStr name => findColumn df name
           | _ => none) with
    | none => .error (.keyErr ("Column not found: " ++ pyStr col))
    | some s => evalLeafOp s op val ci

/-- Left fold of the child masks, seeded with the first mask, as the
source folds `child_masks`.  The empty case is unreachable (the caller
has already rejected empty child lists). -/
def foldMasks (op : Mask → Mask → Mask) : List Mask → Mask
  | [] => []
  | m :: rest => rest.foldl op m

/-- One step of `_eval_node`, with the recursive occurrences abstracted
into `recur`: type-check the node, classify its normalised key set
(group markers take priority over negation, which takes priority over
the leaf shape), and evaluate the matching branch. -/
def evalBody (recur : JVal → Except Err Mask) (df : DataFrame) (node : JVal)
    (ci : Bool) : Except Err Mask :=
  match node with
  | .jDict kvs =>
    if hasNormKey kvs "and" || hasNormKey kvs "or" then
      if hasNormKey kvs "and" && hasNormKey kvs "or" then
        .error (.valueErr "Node cannot contain both and and or keys.")
      else
        let gk := if hasNormKey kvs "and" then "and" else "or"
        let children := if rawHas kvs gk then getRaw kvs gk else getRaw kvs (strToUpper gk)
        if optIsNone children then
          .error (.valueErr "Group node must have a list of children.")
        else
          match children with
          | some (.jList cs) =>
            if cs.isEmpty then .error (.valueErr "Group node must be a non-empty list.")
            else do
              let ms ← mapExcept recur cs
              .ok (foldMasks (if gk == "and" then maskAnd else maskOr) ms)
          | _ => .error (.valueErr "Group node must be a non-empty list.")
    else if hasNormKey kvs "not" then
      let child := if rawHas kvs "not" then getRaw kvs "not" else getRaw kvs "NOT"
      if optIsNone child then
        .error (.valueErr "NOT node must have a child node or list of nodes.")
      else
        match child with
        | some (.jList cs) =>
          if cs.isEmpty then .error (.valueErr "NOT with a list must be non-empty.")
          else do
            let ms ← mapExcept recur cs
            .ok (maskNot (foldMasks maskAnd ms))
        | some c => do
          let m ← recur c
          .ok (maskNot m)
        | none => .error (.valueErr "NOT node must have a child node or list of nodes.")
    else
      evalLeaf df kvs ci
  | _ => .error (.typeErr "Each node must be a dict.")

/-- Fuel-indexed recursive evaluation.  The fuel only bounds the
recursion depth (Python's recursion limit); `jsize node` always
suffices, and `_eval_node` below supplies it. -/
def evalNodeF : Nat → DataFrame → JVal → Bool → Except Err Mask
  | 0, _, _, _ => .error .recursionErr
  | n + 1, df, node, ci => evalBody (fun c => evalNodeF n df c ci) df node ci

mutual

/-- Structural size of a node, used as the recursion budget of the
evaluator: every child reachable in one evaluation step is strictly
smaller. -/
def jsize : JVal → Nat
  | .jNull => 1
  | .jBool _ => 1
  | .jInt _ => 1
  | .jStr _ => 1
  | .jDate _ => 1
  | .jList xs => 1 + jsizeList xs
  | .jDict kvs => 1 + jsizeKVs kvs
termination_by structural v => v

/-- Size of a list of nodes. -/
def jsizeList : List JVal → Nat
  | [] => 1
  | x :: xs => 1 + jsize x + jsizeList xs
termination_by structural l => l

/-- Size of a key-value list. -/
def jsizeKVs : List (String × JVal) → Nat
  | [] => 1
  | (_, v) :: xs => 1 + jsize v + jsizeKVs xs
termination_by structural l => l

end

/-- `_eval_node(df, node, case_insensitive)`: evaluate a filter-tree
node to a row mask. -/
def _eval_node (df : DataFrame) (node : JVal) (ci : Bool) : Except Err Mask :=
  evalNodeF (jsize node) df node ci

/-- Python truthiness of a node value, for the `if not filters`
short-circuit. -/
def jvalFalsy : JVal → Bool
  | .jNull => true
  | .jBool b => !b
  | .jInt n => n == 0
  | .jStr s => s == ""
  | .jDate _ => false
  | .jList xs => xs.isEmpty
  | .jDict kvs => kvs.isEmpty

/-- `df[mask]`: keep the rows whose mask entry is true, in order. -/
def selectRows (m : Mask) (cells : List JVal) : List JVal :=
  ((m.zip cells).filter (fun p => p.1)).map (fun p => p.2)

/-- `filter_df_nested(df, filters, case_insensitive=...)`: the
`select` contract — identity on an absent or falsy filter, otherwise
evaluate the tree and apply the mask to every column. -/
def filter_df_nested (df : DataFrame) (filters : Option JVal)
    (case_insensitive : Bool) : Except Err DataFrame :=
  match filters with
  | none => .ok df
  | some f =>
    if jvalFalsy f then .ok df
    else do
      let mask ← _eval_node df f case_insensitive
      .ok ⟨df.cols.map (fun kv => (kv.1, ⟨kv.2.dtype, selectRows mask kv.2.cells⟩))⟩

/-! ## Type coercion service (`src/utils.py`) -/

/-- Split a character list at every occurrence of `sep`. -/
def splitOnChar (sep : Char) : List Char → List (List Char)
  | [] => [[]]
  | c :: rest =>
      let r := splitOnChar sep rest
      if c == sep then [] :: r
      else
        match r with
        | [] => [[c]]
        | h :: t => (c :: h) :: t

/-- Value of a base-10 digit string. -/
def digitsToNat (cs : List Char) : Nat :=
  cs.foldl (fun a c => a * 10 + (c.toNat - 48)) 0

/-- Full match of the numeric-literal shape `[-+]?\d+(\.\d+)?`,
returning the signed integer part together with whether the fractional
part (if any) is zero.  The magnitude of a matching literal is
`intPart + frac` with `0 <= frac < 1`. -/
def parseSerialChars (cs : List Char) : Option (Int × Bool) :=
  let sr : Int × List Char :=
    match cs with
    | '+' :: r => (1, r)
    | '-' :: r => (-1, r)
    | r => (1, r)
  match splitOnChar '.' sr.2 with
  | [ip] =>
      if ip ≠ [] ∧ ip.all Char.isDigit then some (sr.1 * digitsToNat ip, true) else none
  | [ip, fp] =>
      if ip ≠ [] ∧ fp ≠ [] ∧ ip.all Char.isDigit ∧ fp.all Char.isDigit then
        some (sr.1 * digitsToNat ip, fp.all (· == '0'))
      else none
  | _ => none

/-- The spreadsheet epoch `datetime(1899, 12, 30)` (pandas convention
for Excel serials in the 1900 date system). -/
def _EXCEL_DATE_BASE_1900 : Int := daysFromCivil 1899 12 30

/-- Serial-to-date step shared by the numeric branches of
`_parse_excel_serial_date`, at calendar-day resolution: the guardrail
accepts `1 <= serial <= 80000`, where `serial = ip + frac` with
`0 <= frac < 1`, and truncating the fractional day (as `.dt.date` later
does) leaves `epoch + ip`. -/
def excelSerialToDay (ip : Int) (fracZero : Bool) : Option Int :=
  if 1 ≤ ip ∧ (ip < 80000 ∨ (ip = 80000 ∧ fracZero = true)) then
    some (_EXCEL_DATE_BASE_1900 + ip)
  else none

/-- `_parse_excel_serial_date(val)` at calendar-day resolution: `None`
and missing give `NaT`; a string is stripped, rejected when empty or not
numeric-looking, and otherwise read as a serial number; ints and floats
are serials directly (a Python `bool` is an `int`, so `True` is serial
1); any other type gives `NaT`. -/
def _parse_excel_serial_date : JVal → Option Int
  | .jNull => none
  | .jStr s =>
      let t := (strStrip s).data
      if t.isEmpty then none
      else
        match parseSerialChars t with
        | none => none
        | some (ip, fz) => excelSerialToDay ip fz
  | .jInt n => excelSerialToDay n true
  | .jBool b => excelSerialToDay (if b then 1 else 0) true
  | _ => none

/-- ISO `YYYY-MM-DD` parsing (day resolution) within the pandas
`Timestamp` year bounds.  This is the generic-parse text domain of the
embedding; the further locale formats `pd.to_datetime` accepts lie
outside it. -/
def parseIsoDate (s : String) : Option Int :=
  match splitOnChar '-' s.data with
  | [ys, ms, ds] =>
      if ys ≠ [] ∧ ms ≠ [] ∧ ds ≠ [] ∧
          ys.all Char.isDigit ∧ ms.all Char.isDigit ∧ ds.all Char.isDigit then
        let y : Int := digitsToNat ys
        let m : Int := digitsToNat ms
        let d : Int := digitsToNat ds
        if 1677 ≤ y ∧ y ≤ 2262 ∧ 1 ≤ m ∧ m ≤ 12 ∧ 1 ≤ d ∧ d ≤ daysInMonth y m then
          some (daysFromCivil y m d)
        else none
      else none
  | _ => none

/-- Nanoseconds per day. -/
def NS_PER_DAY : Int := 86400000000000

/-- One element under `pd.to_datetime(s, errors="coerce")`, truncated to
calendar-day resolution: missing stays missing; text parses as a date
string or coerces to `NaT`; an integer is a nanosecond offset from
1970-01-01 (the default `unit="ns"` of `pd.to_datetime`); a boolean
raises and is coerced to `NaT`; a date passes through. -/
def pandasToDatetime : JVal → Option Int
  | .jNull => none
  | .jStr s => parseIsoDate (strStrip s)
  | .jInt n => if n.natAbs ≤ 9223372036854775807 then some (Int.fdiv n NS_PER_DAY) else none
  | .jBool _ => none
  | .jDate d => some d
  | _ => none

/-- `_to_date_series(s)`: try the generic datetime parse, retry the
failures that are non-missing as Excel serials, convert to calendar
dates (`NaT` stays missing). -/
def _to_date_series (cells : List JVal) : List JVal :=
  cells.map fun cell =>
    match pandasToDatetime cell with
    | some d => .jDate d
    | none =>
        if isNa cell then .jNull
        else
          match _parse_excel_serial_date cell with
          | some d => .jDate d
          | none => .jNull

/-- One element under `pd.to_numeric(s, errors="coerce")` followed by
`astype("Int64")`: numbers pass through (booleans as 0/1), integral text
parses, non-numeric text coerces to missing, and a fractional-valued
literal cannot be safely cast to the nullable integer dtype (pandas
raises there). -/
def toNumericInt : JVal → Except Err JVal
  | .jNull => .ok .jNull
  | .jInt n => .ok (.jInt n)
  | .jBool b => .ok (.jInt (if b then 1 else 0))
  | .jStr s =>
      match parseSerialChars (strStrip s).data with
      | some (ip, true) => .ok (.jInt ip)
      | some (_, false) => .error (.typeErr "cannot safely cast non-integer values to Int64")
      | none => .ok .jNull
  | _ => .ok .jNull

/-- One element under `pd.to_numeric(s, errors="coerce")` for the
`Float64` target.  The embedding carries no floating-point values, so a
non-integral magnitude is outside the embedded domain and maps to
missing; integral values behave as in pandas. -/
def toNumericFloat : JVal → JVal
  | .jNull => .jNull
  | .jInt n => .jInt n
  | .jBool b => .jInt (if b then 1 else 0)
  | .jStr s =>
      match parseSerialChars (strStrip s).data with
      | some (ip, true) => .jInt ip
      | some (_, false) => .jNull
      | none => .jNull
  | _ => .jNull

/-- The fixed boolean lexicon of `coerce_dtypes`: anything outside it
maps to missing. -/
def boolLexicon (t : String) : JVal :=
  if t == "true" || t == "t" || t == "yes" || t == "y" || t == "1" then .jBool true
  else if t == "false" || t == "f" || t == "no" || t == "n" || t == "0" then .jBool false
  else .jNull

/-- One element of the boolean branch:
`astype("string").str.strip().str.lower()` then the lexicon map
(missing stays missing). -/
def coerceBoolCell : JVal → JVal
  | .jNull => .jNull
  | v => boolLexicon (strToLower (strStrip (pyStr v)))

/-- Per-column conversion of `coerce_dtypes`, dispatching on the
normalised target tag `target.strip().lower()`.  The source also accepts
the Python type objects `int`, `float`, `bool` and `str`, which it first
rewrites to exactly these string tags, so the embedding takes the string
form.  A tag outside the recognised sets falls back to a native
`astype`, whose dtypes are outside the embedding; that branch is
modelled as the `TypeError` the source raises when the native cast
fails. -/
def convertColumn (c : Column) (target : String) : Except Err Column :=
  let tN := strToLower (strStrip target)
  if tN == "date" then .ok ⟨.objDt, _to_date_series c.cells⟩
  else if tN == "datetime" || tN == "datetime64" || tN == "timestamp" then
    .ok ⟨.datetimeDt, c.cells.map (fun cell =>
      match pandasToDatetime cell with
      | some d => .jDate d
      | none =>
          if isNa cell then .jNull
          else
            match _parse_excel_serial_date cell with
            | some d => .jDate d
            | none => .jNull)⟩
  else if tN == "string" || tN == "str" then
    .ok ⟨.stringDt, c.cells.map (fun cell => if isNa cell then .jNull else .jStr (pyStr cell))⟩
  else if tN == "int" || tN == "int64" || tN == "integer" then do
    let cs ← mapExcept toNumericInt c.cells
    .ok ⟨.int64Dt, cs⟩
  else if tN == "float" || tN == "float64" || tN == "double" then
    .ok ⟨.float64Dt, c.cells.map toNumericFloat⟩
  else if tN == "bool" || tN == "boolean" then
    if c.dtype == .boolDt then .ok c
    else .ok ⟨.booleanDt, c.cells.map coerceBoolCell⟩
  else .error (.typeErr ("Failed to coerce column to " ++ target))

/-- `coerce_dtypes(df, dtype_map, on_missing=...)`: walk the mapping in
order; a column absent from the table raises a `KeyError` exactly when
the policy string equals `"raise"` and is skipped otherwise; a present
column is converted and replaces the original in a fresh table. -/
def coerce_dtypes (df : DataFrame) (dtype_map : List (String × String))
    (on_missing : String) : Except Err DataFrame :=
  match dtype_map with
  | [] => .ok df
  | (col, target) :: rest =>
      match findColumn df col with
      | none =>
          if on_missing == "raise" then .error (.keyErr ("Column not found: " ++ col))
          else coerce_dtypes df rest on_missing
      | some s =>
          match convertColumn s target with
          | .error e => .error e
          | .ok c2 => coerce_dtypes (setColumn df col c2) rest on_missing

/-! ## Node builders, error classifiers and concrete tables -/

/-- A leaf rule without a `value` entry. -/
def leafNode (c opS : String) : JVal :=
  .jDict [("col", .jStr c), ("op", .jStr opS)]

/-- A leaf rule with a `value` entry. -/
def leafNodeV (c opS : String) (v : JVal) : JVal :=
  .jDict [("col", .jStr c), ("op", .jStr opS), ("value", v)]

/-- Is this error a `ValueError`? -/
def isValueErr : Err → Bool
  | .valueErr _ => true
  | _ => false

/-- Did the computation raise a `ValueError`? -/
def exceptIsValueError {α : Type} : Except Err α → Bool
  | .error e => isValueErr e
  | .ok _ => false

/-- A two-row integer table. -/
def dfAges : DataFrame := ⟨[("age", ⟨.int64Dt, [.jInt 18, .jInt 25]⟩)]⟩

/-- A text table with a missing entry in row 1. -/
def dfNames : DataFrame := ⟨[("name", ⟨.objDt, [.jStr "alice", .jNull]⟩)]⟩

/-- A one-row text table of `object` dtype. -/
def dfBob : DataFrame := ⟨[("name", ⟨.objDt, [.jStr "bob"]⟩)]⟩

/-- The same one-row text table after `astype("string")`. -/
def dfBobString : DataFrame := ⟨[("name", ⟨.stringDt, [.jStr "bob"]⟩)]⟩

/-- A one-row table whose only cell is missing. -/
def dfNulls : DataFrame := ⟨[("x", ⟨.objDt, [.jNull]⟩)]⟩

/-- A spreadsheet-ish date column: a numeric-looking serial and an
unparseable string. -/
def dfDates : DataFrame := ⟨[("d", ⟨.objDt, [.jStr "47521", .jStr "not a date"]⟩)]⟩

/-! ## Size bounds and fuel irrelevance of the evaluator -/

theorem jsize_pos (v : JVal) : 0 < jsize v := by
  cases v <;> simp [jsize]

theorem getRaw_jsize {k : String} {v : JVal} :
    ∀ {kvs : List (String × JVal)}, getRaw kvs k = some v → jsize v < jsizeKVs kvs := by
  intro kvs
  induction kvs with
  | nil => intro h; simp [getRaw] at h
  | cons kv rest ih =>
      obtain ⟨k2, w⟩ := kv
      intro h
      simp only [getRaw] at h
      by_cases hk : (k2 == k) = true
      · rw [if_pos hk] at h
        obtain rfl : w = v := by injection h
        simp [jsizeKVs]
        omega
      · rw [if_neg hk] at h
        have := ih h
        simp [jsizeKVs]
        omega

theorem mem_jsizeList {c : JVal} : ∀ {cs : List JVal}, c ∈ cs → jsize c < jsizeList cs := by
  intro cs
  induction cs with
  | nil => intro h; cases h
  | cons x xs ih =>
      intro h
      rcases List.mem_cons.mp h with rfl | hm
      · simp [jsizeList]; omega
      · have := ih hm
        simp [jsizeList]
        omega

/-- The node a group or negation branch fetches is strictly smaller than
the mapping node it came from. -/
theorem childLookup_jsize {kvs : List (String × JVal)} {k1 k2 : String} {v : JVal}
    (h : (if rawHas kvs k1 then getRaw kvs k1 else getRaw kvs k2) = some v) :
    jsize v < jsize (JVal.jDict kvs) := by
  have hlt : jsize v < jsizeKVs kvs := by
    by_cases hr : rawHas kvs k1 = true
    · rw [if_pos hr] at h; exact getRaw_jsize h
    · rw [if_neg hr] at h; exact getRaw_jsize h
  simp [jsize]
  omega

theorem mapExcept_congr {α β : Type} {f g : α → Except Err β} :
    ∀ {xs : List α}, (∀ x ∈ xs, f x = g x) → mapExcept f xs = mapExcept g xs := by
  intro xs
  induction xs with
  | nil => intro _; rfl
  | cons x rest ih =>
      intro h
      simp only [mapExcept]
      rw [h x (List.mem_cons_self x rest), ih (fun y hy => h y (List.mem_cons_of_mem x hy))]

/-- One evaluation step only consults `recur` on strictly smaller nodes,
so two recursors agreeing below the node give the same step. -/
theorem evalBody_congr {r1 r2 : JVal → Except Err Mask} {df : DataFrame} {node : JVal}
    {ci : Bool} (h : ∀ c, jsize c < jsize node → r1 c = r2 c) :
    evalBody r1 df node ci = evalBody r2 df node ci := by
  cases node with
  | jDict kvs =>
      simp only [evalBody]
      by_cases hg : (hasNormKey kvs "and" || hasNormKey kvs "or") = true
      · simp only [hg, if_true]
        by_cases hb : (hasNormKey kvs "and" && hasNormKey kvs "or") = true
        · simp [hb]
        · simp only [hb, Bool.false_eq_true, if_false]
          rcases hch : (if rawHas kvs (if hasNormKey kvs "and" then "and" else "or")
              then getRaw kvs (if hasNormKey kvs "and" then "and" else "or")
              else getRaw kvs (strToUpper (if hasNormKey kvs "and" then "and" else "or"))) with _ | v
          · simp [hch]
          · have hs := childLookup_jsize hch
            cases v with
            | jList cs =>
                have hrec : mapExcept r1 cs = mapExcept r2 cs := by
                  apply mapExcept_congr
                  intro x hx
                  have h1 := mem_jsizeList hx
                  have h2 := hs
                  apply h
                  simp only [jsize] at h2 ⊢
                  omega
                simp [hch, optIsNone, hrec]
            | jNull => simp [hch, optIsNone]
            | jBool b => simp [hch, optIsNone]
            | jInt n => simp [hch, optIsNone]
            | jStr s => simp [hch, optIsNone]
            | jDate d => simp [hch, optIsNone]
            | jDict kvs2 => simp [hch, optIsNone]
      · simp only [hg, Bool.false_eq_true, if_false]
        by_cases hn : hasNormKey kvs "not" = true
        · simp only [hn, if_true]
          rcases hch : (if rawHas kvs "not" then getRaw kvs "not" else getRaw kvs "NOT")
              with _ | v
          · simp [hch]
          · have hs := childLookup_jsize hch
            cases v with
            | jList cs =>
                have hrec : mapExcept r1 cs = mapExcept r2 cs := by
                  apply mapExcept_congr
                  intro x hx
                  have h1 := mem_jsizeList hx
                  have h2 := hs
                  apply h
                  simp only [jsize] at h2 ⊢
                  omega
                simp [hch, optIsNone, hrec]
            | jNull => simp [hch, optIsNone]
            | jBool b => simp [hch, optIsNone, h _ hs]
            | jInt n => simp [hch, optIsNone, h _ hs]
            | jStr s => simp [hch, optIsNone, h _ hs]
            | jDate d => simp [hch, optIsNone, h _ hs]
            | jDict kvs2 => simp [hch, optIsNone, h _ hs]
        · simp [hn]
  | jNull => rfl
  | jBool b => rfl
  | jInt n => rfl
  | jStr s => rfl
  | jDate d => rfl
  | jList xs => rfl

/-- Any two sufficient recursion budgets evaluate a node identically. -/
theorem evalNodeF_fuel_eq (df : DataFrame) (ci : Bool) :
    ∀ (n : Nat) (node : JVal) (m : Nat), jsize node ≤ n → jsize node ≤ m →
      evalNodeF n df node ci = evalNodeF m df node ci := by
  intro n
  induction n using Nat.strong_induction_on with
  | _ n ih =>
      intro node m hn hm
      have hp := jsize_pos node
      rcases n with _ | n'
      · omega
      rcases m with _ | m'
      · omega
      simp only [evalNodeF]
      apply evalBody_congr
      intro c hc
      exact ih n' (by omega) c m' (by omega) (by omega)

/-- A sufficient explicit budget agrees with the canonical entry point. -/
theorem eval_fuel {df : DataFrame} {ci : Bool} {node : JVal} {n : Nat}
    (h : jsize node ≤ n) : evalNodeF n df node ci = _eval_node df node ci :=
  evalNodeF_fuel_eq df ci n node (jsize node) h (Nat.le_refl _)

/-! ## Calendar sanity anchors -/

/-- Day 0 is 1970-01-01. -/
theorem daysFromCivil_epoch : daysFromCivil 1970 1 1 = 0 := by decide

/-- The spreadsheet epoch 1899-12-30 plus the well-known serial 36526
lands on 2000-01-01. -/
theorem excel_serial_anchor :
    daysFromCivil 1899 12 30 + 36526 = daysFromCivil 2000 1 1 := by decide

/-! ## Mask algebra -/

theorem maskNot_maskNot (m : Mask) : maskNot (maskNot m) = m := by
  simp [maskNot, List.map_map, Function.comp_def]

/-! ## Unfolding the evaluator on leaf-shaped nodes -/

theorem eval_leafNode (df : DataFrame) (c opS : String) (ci : Bool) :
    _eval_node df (leafNode c opS) ci =
      evalLeaf df [("col", .jStr c), ("op", .jStr opS)] ci := by
  have hp := jsize_pos (leafNode c opS)
  unfold _eval_node
  rcases hf : jsize (leafNode c opS) with _ | k
  · omega
  simp only [evalNodeF]
  have e1 : hasNormKey [("col", JVal.jStr c), ("op", JVal.jStr opS)] "and" = false := rfl
  have e2 : hasNormKey [("col", JVal.jStr c), ("op", JVal.jStr opS)] "or" = false := rfl
  have e3 : hasNormKey [("col", JVal.jStr c), ("op", JVal.jStr opS)] "not" = false := rfl
  simp [evalBody, leafNode, e1, e2, e3]

theorem eval_leafNodeV (df : DataFrame) (c opS : String) (val : JVal) (ci : Bool) :
    _eval_node df (leafNodeV c opS val) ci =
      evalLeaf df [("col", .jStr c), ("op", .jStr opS), ("value", val)] ci := by
  have hp := jsize_pos (leafNodeV c opS val)
  unfold _eval_node
  rcases hf : jsize (leafNodeV c opS val) with _ | k
  · omega
  simp only [evalNodeF]
  have e1 : hasNormKey [("col", JVal.jStr c), ("op", JVal.jStr opS), ("value", val)]
      "and" = false := rfl
  have e2 : hasNormKey [("col", JVal.jStr c), ("op", JVal.jStr opS), ("value", val)]
      "or" = false := rfl
  have e3 : hasNormKey [("col", JVal.jStr c), ("op", JVal.jStr opS), ("value", val)]
      "not" = false := rfl
  simp [evalBody, leafNodeV, e1, e2, e3]

theorem evalLeaf_found {df : DataFrame} {c : String} {s : Column} (opS : String)
    (val : JVal) (ci : Bool) (hc : findColumn df c = some s) :
    evalLeaf df [("col", .jStr c), ("op", .jStr opS), ("value", val)] ci
      = evalLeafOpN (normKey opS) (.jStr opS) s val ci := by
  have g1 : getRaw [("col", JVal.jStr c), ("op", JVal.jStr opS), ("value", val)] "col"
      = some (.jStr c) := rfl
  have g2 : getRaw [("col", JVal.jStr c), ("op", JVal.jStr opS), ("value", val)] "op"
      = some (.jStr opS) := rfl
  have g3 : getRaw [("col", JVal.jStr c), ("op", JVal.jStr opS), ("value", val)] "value"
      = some val := rfl
  simp [evalLeaf, g1, g2, g3, isNa, hc, evalLeafOp, pyStr, normKey]

theorem evalLeaf_found_noval {df : DataFrame} {c : String} {s : Column} (opS : String)
    (ci : Bool) (hc : findColumn df c = some s) :
    evalLeaf df [("col", .jStr c), ("op", .jStr opS)] ci
      = evalLeafOpN (normKey opS) (.jStr opS) s .jNull ci := by
  have g1 : getRaw [("col", JVal.jStr c), ("op", JVal.jStr opS)] "col"
      = some (.jStr c) := rfl
  have g2 : getRaw [("col", JVal.jStr c), ("op", JVal.jStr opS)] "op"
      = some (.jStr opS) := rfl
  have g3 : getRaw [("col", JVal.jStr c), ("op", JVal.jStr opS)] "value" = none := rfl
  simp [evalLeaf, g1, g2, g3, isNa, hc, evalLeafOp, pyStr, normKey]

/-- Evaluation of a leaf with a present value, on a found column, in
terms of the normalised-operator dispatch. -/
theorem eval_leafV {df : DataFrame} {c : String} {s : Column} (opS : String)
    (val : JVal) (ci : Bool) (hc : findColumn df c = some s) :
    _eval_node df (leafNodeV c opS val) ci
      = evalLeafOpN (normKey opS) (.jStr opS) s val ci :=
  (eval_leafNodeV df c opS val ci).trans (evalLeaf_found opS val ci hc)

/-- Evaluation of a leaf without a value, on a found column. -/
theorem eval_leafNoV {df : DataFrame} {c : String} {s : Column} (opS : String)
    (ci : Bool) (hc : findColumn df c = some s) :
    _eval_node df (leafNode c opS) ci
      = evalLeafOpN (normKey opS) (.jStr opS) s .jNull ci :=
  (eval_leafNode df c opS ci).trans (evalLeaf_found_noval opS ci hc)

/-- A node that is not a mapping fails with the `TypeError` of the
evaluator's input validation. -/
theorem eval_typeErr_of_not_dict (df : DataFrame) (ci : Bool) :
    ∀ node : JVal, (∀ kvs, node ≠ JVal.jDict kvs) →
      _eval_node df node ci = .error (.typeErr "Each node must be a dict.") := by
  intro node hnd
  have hp := jsize_pos node
  unfold _eval_node
  rcases hf : jsize node with _ | k
  · omega
  simp only [evalNodeF]
  cases node with
  | jDict kvs => exact absurd rfl (hnd kvs)
  | jNull => rfl
  | jBool b => rfl
  | jInt n => rfl
  | jStr s => rfl
  | jDate d => rfl
  | jList xs => rfl

/-! ## Claim theorems -/

/-- C8: `select(T, None)` and `select(T, {})` return the table
unchanged, without evaluating any node — the identity short-circuit of
`filter_df_nested` for an absent or empty (falsy) filter. -/
theorem c8_select_identity (df : DataFrame) (ci : Bool) :
    filter_df_nested df none ci = .ok df ∧
    filter_df_nested df (some (.jDict [])) ci = .ok df :=
  ⟨rfl, rfl⟩

/-- C1 counterexample: coercing the column `["47521", "not a date"]` to
target `date` maps the serial `47521` to the epoch 1899-12-30 plus 47521
days, which is the calendar date 2030-02-07 — not 2030-01-01 as the
claim states (2030-01-01 is serial 47484).  The unparseable string does
resolve to missing. -/
theorem c1_counterexample :
    coerce_dtypes dfDates [("d", "date")] "ignore"
      = .ok ⟨[("d", ⟨.objDt, [.jDate (daysFromCivil 2030 2 7), .jNull]⟩)]⟩ ∧
    daysFromCivil 1899 12 30 + 47521 = daysFromCivil 2030 2 7 ∧
    daysFromCivil 2030 2 7 ≠ daysFromCivil 2030 1 1 :=
  ⟨rfl, by decide, by decide⟩

/-- C1 amended: coercing a column to target type `date` maps the
spreadsheet serial value `"47521"` to exactly the epoch date 1899-12-30
plus 47521 days — the calendar date 2030-02-07 — and maps the
unparseable string `"not a date"` to the missing/null date marker rather
than raising an error. -/
theorem c1_amended :
    coerce_dtypes dfDates [("d", "date")] "ignore"
      = .ok ⟨[("d", ⟨.objDt, [.jDate (daysFromCivil 1899 12 30 + 47521), .jNull]⟩)]⟩ ∧
    civilFromDays (daysFromCivil 1899 12 30 + 47521) = (2030, 2, 7) :=
  ⟨rfl, by decide⟩

/-- C6: whenever both children evaluate successfully, `{and: [A, B]}`
evaluates to the row-by-row logical AND of the child masks, and
`{or: [A, B]}` to the row-by-row logical OR. -/
theorem c6_group_and_or (df : DataFrame) (A B : JVal) (ci : Bool) (ma mb : Mask)
    (hA : _eval_node df A ci = .ok ma) (hB : _eval_node df B ci = .ok mb) :
    _eval_node df (.jDict [("and", .jList [A, B])]) ci = .ok (maskAnd ma mb) ∧
    _eval_node df (.jDict [("or", .jList [A, B])]) ci = .ok (maskOr ma mb) := by
  constructor
  · have hp := jsize_pos (JVal.jDict [("and", JVal.jList [A, B])])
    unfold _eval_node
    rcases hf : jsize (JVal.jDict [("and", JVal.jList [A, B])]) with _ | k
    · omega
    simp only [evalNodeF]
    have hkA : jsize A ≤ k := by
      simp only [jsize, jsizeKVs, jsizeList] at hf; omega
    have hkB : jsize B ≤ k := by
      simp only [jsize, jsizeKVs, jsizeList] at hf; omega
    have fA : evalNodeF k df A ci = .ok ma := by rw [eval_fuel hkA]; exact hA
    have fB : evalNodeF k df B ci = .ok mb := by rw [eval_fuel hkB]; exact hB
    have e1 : hasNormKey [("and", JVal.jList [A, B])] "and" = true := rfl
    have e2 : hasNormKey [("and", JVal.jList [A, B])] "or" = false := rfl
    have e3 : rawHas [("and", JVal.jList [A, B])] "and" = true := rfl
    have e4 : getRaw [("and", JVal.jList [A, B])] "and" = some (.jList [A, B]) := rfl
    simp [evalBody, e1, e2, e3, e4, optIsNone, mapExcept, fA, fB, foldMasks]
    all_goals rfl
  · have hp := jsize_pos (JVal.jDict [("or", JVal.jList [A, B])])
    unfold _eval_node
    rcases hf : jsize (JVal.jDict [("or", JVal.jList [A, B])]) with _ | k
    · omega
    simp only [evalNodeF]
    have hkA : jsize A ≤ k := by
      simp only [jsize, jsizeKVs, jsizeList] at hf; omega
    have hkB : jsize B ≤ k := by
      simp only [jsize, jsizeKVs, jsizeList] at hf; omega
    have fA : evalNodeF k df A ci = .ok ma := by rw [eval_fuel hkA]; exact hA
    have fB : evalNodeF k df B ci = .ok mb := by rw [eval_fuel hkB]; exact hB
    have e1 : hasNormKey [("or", JVal.jList [A, B])] "and" = false := rfl
    have e2 : hasNormKey [("or", JVal.jList [A, B])] "or" = true := rfl
    have e3 : rawHas [("or", JVal.jList [A, B])] "or" = true := rfl
    have e4 : getRaw [("or", JVal.jList [A, B])] "or" = some (.jList [A, B]) := rfl
    simp [evalBody, e1, e2, e3, e4, optIsNone, mapExcept, fA, fB, foldMasks]
    all_goals rfl

/-- C6 witness at a concrete table and child filters. -/
theorem c6_witness :
    _eval_node dfAges (.jDict [("and", .jList [leafNodeV "age" ">=" (.jInt 21),
        leafNodeV "age" "<=" (.jInt 30)])]) false = .ok (maskAnd [false, true] [true, true]) :=
  (c6_group_and_or dfAges (leafNodeV "age" ">=" (.jInt 21)) (leafNodeV "age" "<=" (.jInt 30))
    false [false, true] [true, true] rfl rfl).1

/-- C7: for any node `F` that evaluates successfully, the double
negation `{not: {not: F}}` evaluates to the same mask as `F`. -/
theorem c7_double_negation (df : DataFrame) (F : JVal) (ci : Bool) (m : Mask)
    (h : _eval_node df F ci = .ok m) :
    _eval_node df (.jDict [("not", .jDict [("not", F)])]) ci = .ok m := by
  cases F with
  | jNull => rw [eval_typeErr_of_not_dict df ci _ (by intro kvs hk; cases hk)] at h; cases h
  | jBool b => rw [eval_typeErr_of_not_dict df ci _ (by intro kvs hk; cases hk)] at h; cases h
  | jInt n => rw [eval_typeErr_of_not_dict df ci _ (by intro kvs hk; cases hk)] at h; cases h
  | jStr s => rw [eval_typeErr_of_not_dict df ci _ (by intro kvs hk; cases hk)] at h; cases h
  | jDate d => rw [eval_typeErr_of_not_dict df ci _ (by intro kvs hk; cases hk)] at h; cases h
  | jList xs => rw [eval_typeErr_of_not_dict df ci _ (by intro kvs hk; cases hk)] at h; cases h
  | jDict kvsF =>
    have hin : _eval_node df (.jDict [("not", JVal.jDict kvsF)]) ci = .ok (maskNot m) := by
      have hp := jsize_pos (JVal.jDict [("not", JVal.jDict kvsF)])
      unfold _eval_node
      rcases hf : jsize (JVal.jDict [("not", JVal.jDict kvsF)]) with _ | k
      · omega
      simp only [evalNodeF]
      have hkF : jsize (JVal.jDict kvsF) ≤ k := by
        simp only [jsize, jsizeKVs] at hf ⊢; omega
      have fF : evalNodeF k df (.jDict kvsF) ci = .ok m := by rw [eval_fuel hkF]; exact h
      have e1 : hasNormKey [("not", JVal.jDict kvsF)] "and" = false := rfl
      have e2 : hasNormKey [("not", JVal.jDict kvsF)] "or" = false := rfl
      have e3 : hasNormKey [("not", JVal.jDict kvsF)] "not" = true := rfl
      have e4 : rawHas [("not", JVal.jDict kvsF)] "not" = true := rfl
      have e5 : getRaw [("not", JVal.jDict kvsF)] "not" = some (.jDict kvsF) := rfl
      simp [evalBody, e1, e2, e3, e4, e5, optIsNone, fF]
      all_goals rfl
    have hp := jsize_pos (JVal.jDict [("not", JVal.jDict [("not", JVal.jDict kvsF)])])
    unfold _eval_node
    rcases hf : jsize (JVal.jDict [("not", JVal.jDict [("not", JVal.jDict kvsF)])]) with _ | k
    · omega
    simp only [evalNodeF]
    have hkI : jsize (JVal.jDict [("not", JVal.jDict kvsF)]) ≤ k := by
      simp only [jsize, jsizeKVs] at hf ⊢; omega
    have fI : evalNodeF k df (.jDict [("not", JVal.jDict kvsF)]) ci = .ok (maskNot m) := by
      rw [eval_fuel hkI]; exact hin
    have e1 : hasNormKey [("not", JVal.jDict [("not", JVal.jDict kvsF)])] "and" = false := rfl
    have e2 : hasNormKey [("not", JVal.jDict [("not", JVal.jDict kvsF)])] "or" = false := rfl
    have e3 : hasNormKey [("not", JVal.jDict [("not", JVal.jDict kvsF)])] "not" = true := rfl
    have e4 : rawHas [("not", JVal.jDict [("not", JVal.jDict kvsF)])] "not" = true := rfl
    have e5 : getRaw [("not", JVal.jDict [("not", JVal.jDict kvsF)])] "not"
        = some (.jDict [("not", JVal.jDict kvsF)]) := rfl
    simp [evalBody, e1, e2, e3, e4, e5, optIsNone, fI]
    show Except.ok (maskNot (maskNot m)) = Except.ok m
    rw [maskNot_maskNot]

/-- C7 witness at a concrete table and leaf filter. -/
theorem c7_witness :
    _eval_node dfAges (.jDict [("not", .jDict [("not",
        leafNodeV "age" ">=" (.jInt 21))])]) false = .ok [false, true] :=
  c7_double_negation dfAges (leafNodeV "age" ">=" (.jInt 21)) false [false, true] rfl

/-- C10: the on-missing policy of `coerce_dtypes` raises only when the
policy string is exactly `"raise"`; any other policy value behaves
exactly as `"ignore"`, skipping mapped columns absent from the table,
while `"raise"` on a missing column is a `KeyError` naming it. -/
theorem c10_on_missing_policy (df : DataFrame) (dm : List (String × String)) (p : String)
    (hp : p ≠ "raise") :
    coerce_dtypes df dm p = coerce_dtypes df dm "ignore" ∧
    (∀ c t rest, findColumn df c = none →
        coerce_dtypes df ((c, t) :: rest) p = coerce_dtypes df rest p) ∧
    (∀ (df2 : DataFrame) (c t : String) (rest : List (String × String)),
        findColumn df2 c = none →
        coerce_dtypes df2 ((c, t) :: rest) "raise"
          = .error (.keyErr ("Column not found: " ++ c))) := by
  have hpb : (p == "raise") = false := beq_eq_false_iff_ne.mpr hp
  have hib : (("ignore" : String) == "raise") = false := rfl
  have hrb : (("raise" : String) == "raise") = true := rfl
  refine ⟨?_, ?_, ?_⟩
  · induction dm generalizing df with
    | nil => rfl
    | cons kv rest ih =>
        obtain ⟨c, t⟩ := kv
        simp only [coerce_dtypes]
        cases hfc : findColumn df c with
        | none => simp only [hfc, hpb, hib, Bool.false_eq_true, if_false]; exact ih df
        | some s =>
            simp only [hfc]
            cases hcv : convertColumn s t with
            | error e => rfl
            | ok c2 => exact ih (setColumn df c c2)
  · intro c t rest hfc
    simp only [coerce_dtypes, hfc, hpb, Bool.false_eq_true, if_false]
  · intro df2 c t rest hfc
    simp only [coerce_dtypes, hfc, hrb, if_true]

/-- C10 witness: the misspelt policy `"RAISE"` silently behaves as
`"ignore"` and skips the absent column. -/
theorem c10_witness :
    coerce_dtypes dfAges [("zzz", "int")] "RAISE"
      = coerce_dtypes dfAges [("zzz", "int")] "ignore" ∧
    coerce_dtypes dfAges [("zzz", "int")] "RAISE" = .ok dfAges :=
  ⟨(c10_on_missing_policy dfAges [("zzz", "int")] "RAISE" (by decide)).1, rfl⟩

/-! ## Absent-value behaviour per operator family -/

theorem evalLeafOpN_set_absent {opN : String} (h : opN ∈ _SET_OPS) (op : JVal)
    (s : Column) (ci : Bool) :
    evalLeafOpN opN op s .jNull ci
      = .error (.valueErr "Operator requires a list or iterable value") := by
  simp [_SET_OPS] at h
  rcases h with h | h | h | h <;> subst h <;> rfl

theorem evalLeafOpN_between_absent {opN : String} (h : opN ∈ _RANGE_OPS) (op : JVal)
    (s : Column) (ci : Bool) :
    evalLeafOpN opN op s .jNull ci
      = .error (.valueErr "Operator between requires value [low, high]") := by
  simp [_RANGE_OPS] at h
  subst h; rfl

theorem evalLeafOpN_string_absent {opN : String} (h : opN ∈ _STRING_OPS) (op : JVal)
    (s : Column) (ci : Bool) :
    evalLeafOpN opN op s .jNull ci = .error (.valueErr "Operator requires a value") := by
  simp [_STRING_OPS] at h
  rcases h with h | h | h | h <;> subst h <;> rfl

theorem evalLeafOpN_null_ok {opN : String} (h : opN ∈ _NULL_OPS) (op val : JVal)
    (s : Column) (ci : Bool) :
    evalLeafOpN opN op s val ci
      = .ok (if opN == "isnull" || opN == "is_null" then s.cells.map isNa
             else s.cells.map (fun c => !(isNa c))) := by
  simp [_NULL_OPS] at h
  rcases h with h | h | h | h <;> subst h <;> rfl

theorem pyLt_not_valueErr (a b : JVal) : exceptIsValueError (pyLt a b) = false := by
  cases a <;> cases b <;> rfl

theorem pyLe_not_valueErr (a b : JVal) : exceptIsValueError (pyLe a b) = false := by
  cases a <;> cases b <;> rfl

theorem mapExcept_not_valueErr {α : Type} {f : α → Except Err Bool}
    (hf : ∀ x, exceptIsValueError (f x) = false) :
    ∀ xs : List α, exceptIsValueError (mapExcept f xs) = false := by
  intro xs
  induction xs with
  | nil => rfl
  | cons x rest ih =>
      simp only [mapExcept]
      cases hx : f x with
      | error e =>
          have h1 := hf x
          rw [hx] at h1
          exact h1
      | ok y =>
          cases hr : mapExcept f rest with
          | error e2 => rw [hr] at ih; exact ih
          | ok ys => rfl

theorem cmpPairs_not_valueErr {opN : String} (h : opN ∈ _OPS)
    (pairs : List (JVal × JVal)) :
    exceptIsValueError (cmpPairs opN pairs) = false := by
  simp [_OPS] at h
  rcases h with h | h | h | h | h | h <;> subst h
  · rfl
  · rfl
  · exact mapExcept_not_valueErr (fun p => pyLt_not_valueErr p.2 p.1) pairs
  · exact mapExcept_not_valueErr (fun p => pyLe_not_valueErr p.2 p.1) pairs
  · exact mapExcept_not_valueErr (fun p => pyLt_not_valueErr p.1 p.2) pairs
  · exact mapExcept_not_valueErr (fun p => pyLe_not_valueErr p.1 p.2) pairs

theorem evalLeafOpN_cmp_no_valueErr {opN : String} (h : opN ∈ _OPS) (op : JVal)
    (s : Column) (ci : Bool) :
    exceptIsValueError (evalLeafOpN opN op s .jNull ci) = false := by
  obtain ⟨dt, cells⟩ := s
  have hsc : ∀ opN2, opN2 ∈ _OPS →
      exceptIsValueError (cmpSeries opN2 cells .jNull) = false := by
    intro opN2 h2
    exact cmpPairs_not_valueErr h2 _
  simp [_OPS] at h
  rcases h with h | h | h | h | h | h <;> subst h <;> cases ci <;> cases dt <;>
    first
      | rfl
      | exact hsc "==" (by decide)
      | exact hsc "!=" (by decide)
      | exact hsc ">" (by decide)
      | exact hsc ">=" (by decide)
      | exact hsc "<" (by decide)
      | exact hsc "<=" (by decide)

/-- C2 counterexample: a `==` leaf with the `value` entry absent does
not fail with a Validation error — the absent value is passed straight
to the raw comparison, which returns an all-false mask over an integer
column. -/
theorem c2_counterexample :
    _eval_node dfAges (leafNode "age" "==") false = .ok [false, false] ∧
    exceptIsValueError (_eval_node dfAges (leafNode "age" "==") false) = false :=
  ⟨rfl, rfl⟩

/-- C2 amended: a leaf with `value` absent fails with a Validation
error for the set-membership, range and string-match operator families,
succeeds for the null-check operators — but the comparison operators
`==, !=, >, >=, <, <=` perform no such validation: they apply the raw
comparison to the absent value and never raise a Validation error. -/
theorem c2_amended :
    (∀ (df : DataFrame) (c opS : String) (s : Column) (ci : Bool),
        findColumn df c = some s →
        normKey opS ∈ _SET_OPS ++ _RANGE_OPS ++ _STRING_OPS →
        exceptIsValueError (_eval_node df (leafNode c opS) ci) = true) ∧
    (∀ (df : DataFrame) (c opS : String) (s : Column) (ci : Bool),
        findColumn df c = some s → normKey opS ∈ _NULL_OPS →
        ∃ m, _eval_node df (leafNode c opS) ci = .ok m) ∧
    (∀ (df : DataFrame) (c opS : String) (s : Column) (ci : Bool),
        findColumn df c = some s → normKey opS ∈ _OPS →
        exceptIsValueError (_eval_node df (leafNode c opS) ci) = false) := by
  refine ⟨?_, ?_, ?_⟩
  · intro df c opS s ci hc h
    rw [eval_leafNoV opS ci hc]
    rcases List.mem_append.mp h with h2 | h2
    · rcases List.mem_append.mp h2 with h3 | h3
      · rw [evalLeafOpN_set_absent h3]; rfl
      · rw [evalLeafOpN_between_absent h3]; rfl
    · rw [evalLeafOpN_string_absent h2]; rfl
  · intro df c opS s ci hc h
    rw [eval_leafNoV opS ci hc, evalLeafOpN_null_ok h]
    exact ⟨_, rfl⟩
  · intro df c opS s ci hc h
    rw [eval_leafNoV opS ci hc]
    exact evalLeafOpN_cmp_no_valueErr h _ s ci

/-- C2 witness: with `value` absent, `in` raises a Validation error on
a concrete table while `>` does not. -/
theorem c2_witness :
    exceptIsValueError (_eval_node dfAges (leafNode "age" "in") false) = true ∧
    exceptIsValueError (_eval_node dfAges (leafNode "age" ">") false) = false :=
  ⟨c2_amended.1 dfAges "age" "in" ⟨.int64Dt, [.jInt 18, .jInt 25]⟩ false rfl (by decide),
   c2_amended.2.2 dfAges "age" ">" ⟨.int64Dt, [.jInt 18, .jInt 25]⟩ false rfl (by decide)⟩

/-- C3 counterexample: the key `"And"` is detected as a group marker
(its normalisation is `"and"`), yet the node `{"And": [...]}` raises a
Validation error while the identical node written `{"and": [...]}`
evaluates to a mask — the two are not given the same result. -/
theorem c3_counterexample :
    normKey "And" = "and" ∧
    _eval_node dfAges (.jDict [("And", .jList [leafNode "age" "isnull"])]) false
      = .error (.valueErr "Group node must have a list of children.") ∧
    _eval_node dfAges (.jDict [("and", .jList [leafNode "age" "isnull"])]) false
      = .ok [false, false] :=
  ⟨rfl, rfl, rfl⟩

/-- C3 amended: combinator/negation *detection* is case-folded and
whitespace-trimmed, but the children are then fetched only under the
exact lowercase or exact uppercase key: a key normalising to `and`/`or`
(resp. `not`) that is neither its lowercase nor its uppercase spelling
is detected as a group (resp. negation) node and then fails with the
missing-children Validation error, while the exact uppercase spelling
behaves identically to the exact lowercase one. -/
theorem c3_amended :
    (∀ (k : String) (v : JVal) (df : DataFrame) (ci : Bool),
        normKey k = "and" → k ≠ "and" → k ≠ "AND" →
        _eval_node df (.jDict [(k, v)]) ci
          = .error (.valueErr "Group node must have a list of children.")) ∧
    (∀ (k : String) (v : JVal) (df : DataFrame) (ci : Bool),
        normKey k = "or" → k ≠ "or" → k ≠ "OR" →
        _eval_node df (.jDict [(k, v)]) ci
          = .error (.valueErr "Group node must have a list of children.")) ∧
    (∀ (k : String) (v : JVal) (df : DataFrame) (ci : Bool),
        normKey k = "not" → k ≠ "not" → k ≠ "NOT" →
        _eval_node df (.jDict [(k, v)]) ci
          = .error (.valueErr "NOT node must have a child node or list of nodes.")) ∧
    (∀ (v : JVal) (df : DataFrame) (ci : Bool),
        _eval_node df (.jDict [("AND", v)]) ci = _eval_node df (.jDict [("and", v)]) ci) ∧
    (∀ (v : JVal) (df : DataFrame) (ci : Bool),
        _eval_node df (.jDict [("OR", v)]) ci = _eval_node df (.jDict [("or", v)]) ci) ∧
    (∀ (v : JVal) (df : DataFrame) (ci : Bool),
        _eval_node df (.jDict [("NOT", v)]) ci = _eval_node df (.jDict [("not", v)]) ci) := by
  refine ⟨?_, ?_, ?_, ?_, ?_, ?_⟩
  · intro k v df ci hnk hne hnE
    have hp := jsize_pos (JVal.jDict [(k, v)])
    unfold _eval_node
    rcases hf : jsize (JVal.jDict [(k, v)]) with _ | n
    · omega
    simp only [evalNodeF]
    have ek : (k == "and") = false := beq_eq_false_iff_ne.mpr hne
    have ekE : (k == "AND") = false := beq_eq_false_iff_ne.mpr hnE
    have e1 : hasNormKey [(k, v)] "and" = true := by simp [hasNormKey, hnk]
    have e2 : hasNormKey [(k, v)] "or" = false := by simp [hasNormKey, hnk]
    have e3 : rawHas [(k, v)] "and" = false := by simp [rawHas, getRaw, ek]
    have e4 : getRaw [(k, v)] (strToUpper "and") = none := by
      rw [show strToUpper "and" = "AND" from rfl]
      simp [getRaw, ekE]
    simp [evalBody, e1, e2, e3, e4, optIsNone]
  · intro k v df ci hnk hne hnE
    have hp := jsize_pos (JVal.jDict [(k, v)])
    unfold _eval_node
    rcases hf : jsize (JVal.jDict [(k, v)]) with _ | n
    · omega
    simp only [evalNodeF]
    have ek : (k == "or") = false := beq_eq_false_iff_ne.mpr hne
    have ekE : (k == "OR") = false := beq_eq_false_iff_ne.mpr hnE
    have e1 : hasNormKey [(k, v)] "and" = false := by simp [hasNormKey, hnk]
    have e2 : hasNormKey [(k, v)] "or" = true := by simp [hasNormKey, hnk]
    have e3 : rawHas [(k, v)] "or" = false := by simp [rawHas, getRaw, ek]
    have e4 : getRaw [(k, v)] (strToUpper "or") = none := by
      rw [show strToUpper "or" = "OR" from rfl]
      simp [getRaw, ekE]
    simp [evalBody, e1, e2, e3, e4, optIsNone]
  · intro k v df ci hnk hne hnE
    have hp := jsize_pos (JVal.jDict [(k, v)])
    unfold _eval_node
    rcases hf : jsize (JVal.jDict [(k, v)]) with _ | n
    · omega
    simp only [evalNodeF]
    have ek : (k == "not") = false := beq_eq_false_iff_ne.mpr hne
    have ekE : (k == "NOT") = false := beq_eq_false_iff_ne.mpr hnE
    have e1 : hasNormKey [(k, v)] "and" = false := by simp [hasNormKey, hnk]
    have e2 : hasNormKey [(k, v)] "or" = false := by simp [hasNormKey, hnk]
    have e3 : hasNormKey [(k, v)] "not" = true := by simp [hasNormKey, hnk]
    have e4 : rawHas [(k, v)] "not" = false := by simp [rawHas, getRaw, ek]
    have e5 : getRaw [(k, v)] "NOT" = none := by simp [getRaw, ekE]
    simp [evalBody, e1, e2, e3, e4, e5, optIsNone]
  · intro v df ci
    have hp := jsize_pos (JVal.jDict [("AND", v)])
    have hsz : jsize (JVal.jDict [("and", v)]) = jsize (JVal.jDict [("AND", v)]) := rfl
    unfold _eval_node
    rw [hsz]
    rcases hf : jsize (JVal.jDict [("AND", v)]) with _ | n
    · omega
    simp only [evalNodeF]
    have e1 : hasNormKey [("AND", v)] "and" = true := rfl
    have e2 : hasNormKey [("AND", v)] "or" = false := rfl
    have e3 : rawHas [("AND", v)] "and" = false := rfl
    have e4 : getRaw [("AND", v)] (strToUpper "and") = some v := rfl
    have e5 : hasNormKey [("and", v)] "and" = true := rfl
    have e6 : hasNormKey [("and", v)] "or" = false := rfl
    have e7 : rawHas [("and", v)] "and" = true := rfl
    have e8 : getRaw [("and", v)] "and" = some v := rfl
    simp [evalBody, e1, e2, e3, e4, e5, e6, e7, e8]
  · intro v df ci
    have hp := jsize_pos (JVal.jDict [("OR", v)])
    have hsz : jsize (JVal.jDict [("or", v)]) = jsize (JVal.jDict [("OR", v)]) := rfl
    unfold _eval_node
    rw [hsz]
    rcases hf : jsize (JVal.jDict [("OR", v)]) with _ | n
    · omega
    simp only [evalNodeF]
    have e1 : hasNormKey [("OR", v)] "and" = false := rfl
    have e2 : hasNormKey [("OR", v)] "or" = true := rfl
    have e3 : rawHas [("OR", v)] "or" = false := rfl
    have e4 : getRaw [("OR", v)] (strToUpper "or") = some v := rfl
    have e5 : hasNormKey [("or", v)] "and" = false := rfl
    have e6 : hasNormKey [("or", v)] "or" = true := rfl
    have e7 : rawHas [("or", v)] "or" = true := rfl
    have e8 : getRaw [("or", v)] "or" = some v := rfl
    simp [evalBody, e1, e2, e3, e4, e5, e6, e7, e8]
  · intro v df ci
    have hp := jsize_pos (JVal.jDict [("NOT", v)])
    have hsz : jsize (JVal.jDict [("not", v)]) = jsize (JVal.jDict [("NOT", v)]) := rfl
    unfold _eval_node
    rw [hsz]
    rcases hf : jsize (JVal.jDict [("NOT", v)]) with _ | n
    · omega
    simp only [evalNodeF]
    have e1 : hasNormKey [("NOT", v)] "and" = false := rfl
    have e2 : hasNormKey [("NOT", v)] "or" = false := rfl
    have e3 : hasNormKey [("NOT", v)] "not" = true := rfl
    have e4 : rawHas [("NOT", v)] "not" = false := rfl
    have e5 : getRaw [("NOT", v)] "NOT" = some v := rfl
    have e6 : hasNormKey [("not", v)] "and" = false := rfl
    have e7 : hasNormKey [("not", v)] "or" = false := rfl
    have e8 : hasNormKey [("not", v)] "not" = true := rfl
    have e9 : rawHas [("not", v)] "not" = true := rfl
    have e10 : getRaw [("not", v)] "not" = some v := rfl
    simp [evalBody, e1, e2, e3, e4, e5, e6, e7, e8, e9, e10]

/-- C3 witness: the whitespace variant `" and "` normalises to `and`
but raises a Validation error instead of evaluating like `"and"`. -/
theorem c3_witness :
    _eval_node dfAges (.jDict [(" and ", .jList [leafNode "age" "isnull"])]) false
      = .error (.valueErr "Group node must have a list of children.") :=
  c3_amended.1 " and " (.jList [leafNode "age" "isnull"]) dfAges false
    (by decide) (by decide) (by decide)

/-! ## String-match masks over missing values -/

/-- Shape of the masks of the positive string-match operators: the
column is rendered to nullable text and mapped through a predicate that
sends a missing entry to `false` (the `na=False` of the source). -/
theorem string_family_shape {opN : String}
    (h : opN ∈ ["contains", "startswith", "endswith"]) (op val : JVal) (s : Column)
    (ci : Bool) (hv : isNa val = false) :
    ∃ g : Option String → Bool,
      evalLeafOpN opN op s val ci
        = .ok ((s.cells.map (fun c => if isNa c then none else some (pyStr c))).map g) ∧
      g none = false := by
  simp at h
  rcases h with h | h | h <;> subst h <;> cases ci
  · exact ⟨naFalse (fun t => strContains t (pyStr val)),
      by simp [evalLeafOpN, hv, _NULL_OPS, _SET_OPS, _RANGE_OPS, _STRING_OPS, _OPS,
        Function.comp_def], rfl⟩
  · exact ⟨fun o => naFalse (fun t => strContains t (strToLower (pyStr val)))
        (Option.map strToLower o),
      by simp [evalLeafOpN, hv, _NULL_OPS, _SET_OPS, _RANGE_OPS, _STRING_OPS, _OPS,
        List.map_map, Function.comp_def], rfl⟩
  · exact ⟨naFalse (fun t => strStarts t (pyStr val)),
      by simp [evalLeafOpN, hv, _NULL_OPS, _SET_OPS, _RANGE_OPS, _STRING_OPS, _OPS,
        Function.comp_def], rfl⟩
  · exact ⟨fun o => naFalse (fun t => strStarts t (strToLower (pyStr val)))
        (Option.map strToLower o),
      by simp [evalLeafOpN, hv, _NULL_OPS, _SET_OPS, _RANGE_OPS, _STRING_OPS, _OPS,
        List.map_map, Function.comp_def], rfl⟩
  · exact ⟨naFalse (fun t => strEnds t (pyStr val)),
      by simp [evalLeafOpN, hv, _NULL_OPS, _SET_OPS, _RANGE_OPS, _STRING_OPS, _OPS,
        Function.comp_def], rfl⟩
  · exact ⟨fun o => naFalse (fun t => strEnds t (strToLower (pyStr val)))
        (Option.map strToLower o),
      by simp [evalLeafOpN, hv, _NULL_OPS, _SET_OPS, _RANGE_OPS, _STRING_OPS, _OPS,
        List.map_map, Function.comp_def], rfl⟩

/-- Shape of the `not_contains` mask: the complement of the `contains`
mask, whose predicate sends a missing entry to `false`. -/
theorem string_family_shape_nc (op val : JVal) (s : Column) (ci : Bool)
    (hv : isNa val = false) :
    ∃ g : Option String → Bool,
      evalLeafOpN "not_contains" op s val ci
        = .ok (maskNot
            ((s.cells.map (fun c => if isNa c then none else some (pyStr c))).map g)) ∧
      g none = false := by
  cases ci
  · exact ⟨naFalse (fun t => strContains t (pyStr val)),
      by simp [evalLeafOpN, hv, _NULL_OPS, _SET_OPS, _RANGE_OPS, _STRING_OPS, _OPS,
        maskNot, List.map_map, Function.comp_def], rfl⟩
  · exact ⟨fun o => naFalse (fun t => strContains t (strToLower (pyStr val)))
        (Option.map strToLower o),
      by simp [evalLeafOpN, hv, _NULL_OPS, _SET_OPS, _RANGE_OPS, _STRING_OPS, _OPS,
        maskNot, List.map_map, Function.comp_def], rfl⟩

/-- C4 counterexample: over the column `["alice", None]`, the leaf
`{col: name, op: not_contains, value: "x"}` yields the mask
`[true, true]` — the missing row at index 1 yields `true`, not `false`
as the claim requires for every string-match operator. -/
theorem c4_counterexample :
    dfNames.cols.map (fun kv => kv.2.cells) = [[.jStr "alice", .jNull]] ∧
    _eval_node dfNames (leafNodeV "name" "not_contains" (.jStr "x")) false
      = .ok [true, true] ∧
    [true, true][1]? ≠ some false :=
  ⟨rfl, rfl, by decide⟩

/-- C4 amended: over a column containing missing values, a row whose
value is missing yields `false` in the masks of `contains`,
`startswith` and `endswith` (missing never matches and never raises),
but yields `true` under `not_contains`, which is the exact complement of
the `contains` mask. -/
theorem c4_amended :
    ∀ (df : DataFrame) (c opS : String) (v : JVal) (s : Column) (ci : Bool) (i : Nat)
      (m : Mask),
      findColumn df c = some s → isNa v = false →
      s.cells[i]? = some .jNull →
      _eval_node df (leafNodeV c opS v) ci = .ok m →
      ((normKey opS ∈ ["contains", "startswith", "endswith"] → m[i]? = some false) ∧
       (normKey opS = "not_contains" → m[i]? = some true)) := by
  intro df c opS v s ci i m hc hv hnull hev
  rw [eval_leafV opS v ci hc] at hev
  have hopt : (s.cells.map (fun c2 => if isNa c2 then none else some (pyStr c2)))[i]?
      = some none := by
    rw [List.getElem?_map, hnull]
    rfl
  constructor
  · intro hop
    obtain ⟨g, hg, hgn⟩ := string_family_shape hop (.jStr opS) v s ci hv
    rw [hg] at hev
    injection hev with hm
    subst hm
    rw [List.getElem?_map, hopt]
    simp [hgn]
  · intro hop
    rw [hop] at hev
    obtain ⟨g, hg, hgn⟩ := string_family_shape_nc (.jStr opS) v s ci hv
    rw [hg] at hev
    injection hev with hm
    subst hm
    rw [maskNot, List.getElem?_map, List.getElem?_map, hopt]
    simp [hgn]

/-- C4 witness: on the same concrete table, `contains` yields `false`
at the missing row. -/
theorem c4_witness :
    _eval_node dfNames (leafNodeV "name" "contains" (.jStr "x")) false
      = .ok [false, false] ∧
    [false, false][1]? = some false ∧
    [true, true][1]? = some true :=
  ⟨rfl,
   (c4_amended dfNames "name" "contains" (.jStr "x") ⟨.objDt, [.jStr "alice", .jNull]⟩
     false 1 [false, false] rfl rfl rfl rfl).1 (by decide),
   (c4_amended dfNames "name" "not_contains" (.jStr "x") ⟨.objDt, [.jStr "alice", .jNull]⟩
     false 1 [true, true] rfl rfl rfl rfl).2 (by decide)⟩

/-- A leaf naming an absent column raises a `KeyError` naming it. -/
theorem evalLeaf_notfound {df : DataFrame} {c : String} (opS : String) (val : JVal)
    (ci : Bool) (hc : findColumn df c = none) :
    evalLeaf df [("col", .jStr c), ("op", .jStr opS), ("value", val)] ci
      = .error (.keyErr ("Column not found: " ++ c)) := by
  have g1 : getRaw [("col", JVal.jStr c), ("op", JVal.jStr opS), ("value", val)] "col"
      = some (.jStr c) := rfl
  have g2 : getRaw [("col", JVal.jStr c), ("op", JVal.jStr opS), ("value", val)] "op"
      = some (.jStr opS) := rfl
  have g3 : getRaw [("col", JVal.jStr c), ("op", JVal.jStr opS), ("value", val)] "value"
      = some val := rfl
  simp [evalLeaf, g1, g2, g3, isNa, hc, pyStr]

/-- C5 counterexample: the repo's own coercion service turns the
`object` text column `["bob"]` into a pandas `string`-dtype column; on
that (still textual) column a case-insensitive `==` against `"BOB"`
compares raw and selects nothing, while the same filter on the original
`object` column selects the row.  The override therefore does not apply
to every textual column. -/
theorem c5_counterexample :
    coerce_dtypes dfBob [("name", "string")] "ignore" = .ok dfBobString ∧
    _eval_node dfBobString (leafNodeV "name" "==" (.jStr "BOB")) true = .ok [false] ∧
    _eval_node dfBob (leafNodeV "name" "==" (.jStr "BOB")) true = .ok [true] ∧
    (Except.ok [false] : Except Err Mask) ≠ .ok [true] :=
  ⟨rfl, rfl, rfl, by simp⟩

/-- C5 amended: the case-insensitive override of `==`/`!=` lowercases
both sides (the literal stringified first), but only on columns of
`object` dtype; a column of any other dtype — including the textual
pandas `string` dtype — always compares raw, and the ordering
comparisons compare raw regardless of the flag and the dtype. -/
theorem c5_amended :
    (∀ (df : DataFrame) (c : String) (v : JVal) (s : Column),
        findColumn df c = some s → s.dtype = .objDt → isNa v = false →
        _eval_node df (leafNodeV c "==" v) true
          = .ok (s.cells.map (fun cell =>
              if isNa cell then false
              else strToLower (pyStr cell) == strToLower (pyStr v))) ∧
        _eval_node df (leafNodeV c "!=" v) true
          = .ok (s.cells.map (fun cell =>
              if isNa cell then false
              else strToLower (pyStr cell) != strToLower (pyStr v)))) ∧
    (∀ (df : DataFrame) (c opS : String) (v : JVal) (s : Column),
        findColumn df c = some s → s.dtype ≠ .objDt → normKey opS ∈ _OPS →
        _eval_node df (leafNodeV c opS v) true = cmpSeries (normKey opS) s.cells v) ∧
    (∀ (df : DataFrame) (c opS : String) (v : JVal),
        normKey opS ∈ [">", ">=", "<", "<="] →
        _eval_node df (leafNodeV c opS v) true
          = _eval_node df (leafNodeV c opS v) false) := by
  refine ⟨?_, ?_, ?_⟩
  · intro df c v s hc hd hv
    constructor
    · rw [eval_leafV "==" v true hc]
      rw [show normKey "==" = "==" from rfl]
      simp only [evalLeafOpN, hd, hv]
      simp [_NULL_OPS, _SET_OPS, _RANGE_OPS, _STRING_OPS, _OPS, List.map_map,
        Function.comp_def]
      intro cell _
      cases hcell : isNa cell <;> simp [ciCmp, hcell]
    · rw [eval_leafV "!=" v true hc]
      rw [show normKey "!=" = "!=" from rfl]
      simp only [evalLeafOpN, hd, hv]
      simp [_NULL_OPS, _SET_OPS, _RANGE_OPS, _STRING_OPS, _OPS, List.map_map,
        Function.comp_def]
      intro cell _
      cases hcell : isNa cell <;> simp [ciCmp, hcell]
  · intro df c opS v s hc hd hop
    rw [eval_leafV opS v true hc]
    have hb : (s.dtype == Dtype.objDt) = false := beq_eq_false_iff_ne.mpr hd
    simp [_OPS] at hop
    rcases hop with h | h | h | h | h | h <;> rw [h] <;>
      simp [evalLeafOpN, _NULL_OPS, _SET_OPS, _RANGE_OPS, _STRING_OPS, _OPS, hb]
  · intro df c opS v hop
    rw [eval_leafNodeV df c opS v true, eval_leafNodeV df c opS v false]
    cases hfc : findColumn df c with
    | none => rw [evalLeaf_notfound opS v true hfc, evalLeaf_notfound opS v false hfc]
    | some s =>
        rw [evalLeaf_found opS v true hfc, evalLeaf_found opS v false hfc]
        simp at hop
        rcases hop with h | h | h | h <;> rw [h] <;>
          simp [evalLeafOpN, _NULL_OPS, _SET_OPS, _RANGE_OPS, _STRING_OPS, _OPS]

/-- C5 witness at a concrete object-dtype column and ordering leaf. -/
theorem c5_witness :
    _eval_node dfBob (leafNodeV "name" "==" (.jStr "BOB")) true
      = .ok ([JVal.jStr "bob"].map (fun cell =>
          if isNa cell then false
          else strToLower (pyStr cell) == strToLower (pyStr (.jStr "BOB")))) ∧
    _eval_node dfBobString (leafNodeV "name" "==" (.jStr "BOB")) true
      = cmpSeries (normKey "==") [JVal.jStr "bob"] (.jStr "BOB") ∧
    _eval_node dfAges (leafNodeV "age" ">" (.jInt 20)) true
      = _eval_node dfAges (leafNodeV "age" ">" (.jInt 20)) false :=
  ⟨(c5_amended.1 dfBob "name" (.jStr "BOB") ⟨.objDt, [.jStr "bob"]⟩ rfl rfl rfl).1,
   c5_amended.2.1 dfBobString "name" "==" (.jStr "BOB") ⟨.stringDt, [.jStr "bob"]⟩
     rfl (by decide) (by decide),
   c5_amended.2.2 dfAges "age" ">" (.jInt 20) (by decide)⟩

/-! ## Set-membership masks -/

/-- `in`/`isin` masks: membership of each cell in the value list under
the isin equality. -/
theorem c9_in_mask {df : DataFrame} {c : String} {s : Column} (vs : List JVal)
    (ci : Bool) (opS : String) (hc : findColumn df c = some s)
    (hop : normKey opS ∈ ["in", "isin"]) :
    _eval_node df (leafNodeV c opS (.jList vs)) ci
      = .ok (s.cells.map (fun cell => vs.any (isinEq cell))) := by
  rw [eval_leafV opS _ ci hc]
  simp at hop
  rcases hop with h | h <;> rw [h] <;>
    simp [evalLeafOpN, _NULL_OPS, _SET_OPS, _RANGE_OPS, _STRING_OPS, _OPS, pyListOf, isNa]

/-- `not_in`/`notin` masks: the logical complement of the `in` mask. -/
theorem c9_notin_mask {df : DataFrame} {c : String} {s : Column} (vs : List JVal)
    (ci : Bool) (opS : String) (hc : findColumn df c = some s)
    (hop : normKey opS ∈ ["not_in", "notin"]) :
    _eval_node df (leafNodeV c opS (.jList vs)) ci
      = .ok (maskNot (s.cells.map (fun cell => vs.any (isinEq cell)))) := by
  rw [eval_leafV opS _ ci hc]
  simp at hop
  rcases hop with h | h <;> rw [h] <;>
    simp [evalLeafOpN, _NULL_OPS, _SET_OPS, _RANGE_OPS, _STRING_OPS, _OPS, pyListOf, isNa]

/-- A missing cell matches no member of a value list that contains no
missing marker. -/
theorem isinEq_null_false {vs : List JVal} (h : JVal.jNull ∉ vs) :
    vs.any (isinEq .jNull) = false := by
  rw [List.any_eq_false]
  intro x hx
  cases x with
  | jNull => exact absurd hx h
  | jBool b => simp [isinEq, pyEq]
  | jInt n => simp [isinEq, pyEq]
  | jStr t => simp [isinEq, pyEq]
  | jDate d => simp [isinEq, pyEq]
  | jList l => simp [isinEq, pyEq]
  | jDict kvs => simp [isinEq, pyEq]

/-- C9 counterexample: a set-membership value list that itself contains
the missing marker selects the missing row under `in` and deselects it
under `not_in` — missing rows are not universally non-members. -/
theorem c9_counterexample :
    _eval_node dfNulls (leafNodeV "x" "in" (.jList [.jNull])) false = .ok [true] ∧
    _eval_node dfNulls (leafNodeV "x" "not_in" (.jList [.jNull])) false = .ok [false] :=
  ⟨rfl, rfl⟩

/-- C9 amended: for a value list free of missing markers, a missing row
is never selected by `in`/`isin` and always selected by
`not_in`/`notin`; and unconditionally — for any value whatsoever — the
`not_in` result is the exact row-wise complement of the `in` result. -/
theorem c9_amended :
    (∀ (df : DataFrame) (c : String) (s : Column) (vs : List JVal) (ci : Bool)
       (opS : String) (i : Nat),
        findColumn df c = some s → normKey opS ∈ ["in", "isin"] →
        JVal.jNull ∉ vs → s.cells[i]? = some .jNull →
        ∃ m, _eval_node df (leafNodeV c opS (.jList vs)) ci = .ok m ∧
          m[i]? = some false) ∧
    (∀ (df : DataFrame) (c : String) (s : Column) (vs : List JVal) (ci : Bool)
       (opS : String) (i : Nat),
        findColumn df c = some s → normKey opS ∈ ["not_in", "notin"] →
        JVal.jNull ∉ vs → s.cells[i]? = some .jNull →
        ∃ m, _eval_node df (leafNodeV c opS (.jList vs)) ci = .ok m ∧
          m[i]? = some true) ∧
    (∀ (df : DataFrame) (c : String) (v : JVal) (ci : Bool),
        _eval_node df (leafNodeV c "not_in" v) ci
          = Except.map maskNot (_eval_node df (leafNodeV c "in" v) ci)) := by
  refine ⟨?_, ?_, ?_⟩
  · intro df c s vs ci opS i hc hop hnn hnull
    refine ⟨_, c9_in_mask vs ci opS hc hop, ?_⟩
    rw [List.getElem?_map, hnull]
    simp [isinEq_null_false hnn]
  · intro df c s vs ci opS i hc hop hnn hnull
    refine ⟨_, c9_notin_mask vs ci opS hc hop, ?_⟩
    rw [maskNot, List.getElem?_map, List.getElem?_map, hnull]
    simp [isinEq_null_false hnn]
  · intro df c v ci
    rw [eval_leafNodeV df c "not_in" v ci, eval_leafNodeV df c "in" v ci]
    cases hfc : findColumn df c with
    | none => rw [evalLeaf_notfound "not_in" v ci hfc, evalLeaf_notfound "in" v ci hfc]; rfl
    | some s =>
        rw [evalLeaf_found "not_in" v ci hfc, evalLeaf_found "in" v ci hfc]
        rw [show normKey "not_in" = "not_in" from rfl, show normKey "in" = "in" from rfl]
        cases hna : isNa v with
        | true =>
            simp [evalLeafOpN, _NULL_OPS, _SET_OPS, _RANGE_OPS, _STRING_OPS, _OPS, hna,
              Except.map]
        | false =>
            cases hpl : pyListOf v with
            | error e =>
                simp [evalLeafOpN, _NULL_OPS, _SET_OPS, _RANGE_OPS, _STRING_OPS, _OPS,
                  hna, hpl, Except.map]
            | ok vals =>
                simp [evalLeafOpN, _NULL_OPS, _SET_OPS, _RANGE_OPS, _STRING_OPS, _OPS,
                  hna, hpl, Except.map]

/-- C9 witness: a null-free value list over the column
`["alice", None]`. -/
theorem c9_witness :
    (∃ m, _eval_node dfNames (leafNodeV "name" "in" (.jList [.jStr "alice"])) false
        = .ok m ∧ m[1]? = some false) ∧
    (∃ m, _eval_node dfNames (leafNodeV "name" "not_in" (.jList [.jStr "alice"])) false
        = .ok m ∧ m[1]? = some true) :=
  ⟨c9_amended.1 dfNames "name" ⟨.objDt, [.jStr "alice", .jNull]⟩ [.jStr "alice"] false
     "in" 1 rfl (by decide) (by simp) rfl,
   c9_amended.2.1 dfNames "name" ⟨.objDt, [.jStr "alice", .jNull]⟩ [.jStr "alice"] false
     "not_in" 1 rfl (by decide) (by simp) rfl⟩

end PyUtils
